import Mathlib

/-!
# Verification of the bun-docs-mcp-proxy request-forwarding core

A shallow embedding of the forwarding engine of the `bun-docs-mcp-proxy`
repository (`src/http.rs`, `src/main.rs`, `src/protocol.rs`), together with
theorems about the retry/backoff policy, the transient-failure classifier,
the SSE event reducer, the URI grammar of `resources/read`, and the shape of
the JSON-RPC response envelopes.

Modelling conventions:
* Machine integers (`u64`, `usize`, `u32`) are modelled as `Nat` with the
  truncation and saturation of the source spelled out (`% 2 ^ 32` for an
  `as u32` cast, `min _ (2 ^ 64 - 1)` for `saturating_mul`, and `Nat`
  subtraction, which already saturates like `saturating_sub`).  Shifts take
  the release-profile Rust semantics: the shift amount of `1_u64 << k` is
  masked modulo the 64-bit width.
* `serde_json::Value` is modelled by the inductive `Json` below, with
  integer numbers (no claim exercises floating-point numbers).
* Network I/O is modelled by an oracle `backend : Nat → SendOutcome` giving
  the backend's answer to each attempt, and the body of a response is
  carried in already-consumed form (decoded JSON, SSE event list, error
  snippet), matching the three mutually exclusive ways `forward_request`
  consumes a `reqwest::Response` body.
-/

namespace BunDocs

/-- `MAX_RETRIES` from `src/http.rs` (line 59). -/
def MAX_RETRIES : Nat := 3

/-- `BACKOFF_BASE_MS` from `src/http.rs` (line 62). -/
def BACKOFF_BASE_MS : Nat := 200

/-- `BACKOFF_MAX_MS` from `src/http.rs` (line 65). -/
def BACKOFF_MAX_MS : Nat := 1000

/-- The largest value of a `u64`, the saturation point of `saturating_mul`. -/
def U64_MAX : Nat := 2 ^ 64 - 1

/-- `BunDocsClient::backoff_delay_ms` (`src/http.rs` lines 118-129):
`BACKOFF_BASE_MS.saturating_mul(1_u64 << (attempt.saturating_sub(1) as u32)).min(BACKOFF_MAX_MS)`.
The `as u32` cast truncates modulo `2 ^ 32`; the `u64` shift masks its amount
modulo 64 (release semantics); `saturating_mul` caps at `U64_MAX`; `Nat`
subtraction saturates exactly like `saturating_sub`. -/
def backoff_delay_ms (attempt : Nat) : Nat :=
  min (min (BACKOFF_BASE_MS * 2 ^ ((attempt - 1) % 2 ^ 32 % 64)) U64_MAX) BACKOFF_MAX_MS

/-- `BunDocsClient::is_transient_status` (`src/http.rs` lines 140-149):
`matches!(status, TOO_MANY_REQUESTS | INTERNAL_SERVER_ERROR | BAD_GATEWAY |
SERVICE_UNAVAILABLE | GATEWAY_TIMEOUT)`, i.e. 429, 500, 502, 503, 504. -/
def is_transient_status (status : Nat) : Bool :=
  status == 429 || status == 500 || status == 502 || status == 503 || status == 504

/-- `StatusCode::is_success` from the `http` crate: the 2xx range. -/
def isSuccessStatus (status : Nat) : Bool :=
  decide (200 ≤ status ∧ status ≤ 299)

/-- `split(';').next().unwrap_or("")`: the characters before the first `;`
(the whole text when there is none). -/
def beforeSemicolon : List Char → List Char
  | [] => []
  | c :: rest => if c = ';' then [] else c :: beforeSemicolon rest

/-- `str::trim`: drop leading and trailing whitespace characters. -/
def trimChars (l : List Char) : List Char :=
  ((l.dropWhile Char.isWhitespace).reverse.dropWhile Char.isWhitespace).reverse

/-- `BunDocsClient::main_content_type` (`src/http.rs` lines 161-176).  The
argument is the content-type header value, `none` when the header is absent
or its value is not valid text (both return `""` in the source).  Keeps the
part before the first `;`, trims, and ASCII-lowercases (`Char.toLower`
lowercases exactly the ASCII range, like `to_ascii_lowercase`). -/
def main_content_type (header : Option String) : String :=
  match header with
  | none => ""
  | some s => String.mk ((trimChars (beforeSemicolon s.data)).map Char.toLower)

/-- `serde_json::Value`.  Numbers are modelled as integers; no claim
exercises floating-point numbers. -/
inductive Json where
  | null
  | bool (b : Bool)
  | num (n : Int)
  | str (s : String)
  | arr (elems : List Json)
  | obj (fields : List (String × Json))

/-- `Value::get(key)`: a key lookup that yields `none` on non-objects.
`serde_json` maps hold each key at most once, so the first-match semantics
of `List.lookup` coincides with map lookup. -/
def Json.getKey : Json → String → Option Json
  | .obj fields, key => fields.lookup key
  | _, _ => none

/-- One event produced by the `eventsource_stream` decoder: its `event`
type, its raw `data` text, and `dataJson`, the result that
`serde_json::from_str::<Value>(&data)` yields on that text (`none` for a
parse failure). -/
structure SseEvent where
  event : String
  data : String
  dataJson : Option Json

/-- The event type after defaulting (`src/http.rs` lines 384-388):
`"message"` when the decoder reported an empty type. -/
def sseEventType (e : SseEvent) : String :=
  if e.event.isEmpty then "message" else e.event

/-- The loop body of `BunDocsClient::parse_sse_response` (`src/http.rs`
lines 374-421) over the stream's items.  The list ends where the stream
ends; a `.error` item is a stream error, which breaks out of the loop. -/
def parse_sse_loop : List (Except String SseEvent) → Option Json
  | [] => none
  | .error _ :: _ => none
  | .ok e :: rest =>
    let eventType := sseEventType e
    if eventType != "message" && eventType != "completion" then
      parse_sse_loop rest
    else if !e.data.isEmpty then
      match e.dataJson with
      | some parsed =>
        if (parsed.getKey "result").isSome || (parsed.getKey "error").isSome then
          some parsed
        else
          parse_sse_loop rest
      | none => parse_sse_loop rest
    else
      parse_sse_loop rest

/-- `BunDocsClient::parse_sse_response` (`src/http.rs` lines 370-424). -/
def parse_sse_response (items : List (Except String SseEvent)) : Except String Json :=
  match parse_sse_loop items with
  | some v => .ok v
  | none => .error "No valid JSON-RPC response in SSE stream"

/-- An event the reducer accepts, as the spec describes it: a
`message`/`completion` type (after defaulting), non-empty data, data that
parses as JSON, and a parsed value holding a top-level `result` or `error`
key. -/
def qualifying (e : SseEvent) : Bool :=
  (sseEventType e == "message" || sseEventType e == "completion") &&
  !e.data.isEmpty &&
  (match e.dataJson with
   | some parsed => (parsed.getKey "result").isSome || (parsed.getKey "error").isSome
   | none => false)

/-- The events the reducer's loop can reach: the `.ok` items before the
stream's end or first error. -/
def okEventsBeforeError : List (Except String SseEvent) → List SseEvent
  | [] => []
  | .error _ :: _ => []
  | .ok e :: rest => e :: okEventsBeforeError rest

/-- Is the first list a leading segment of the second?  This is
`str::starts_with`, used both for the `text/event-stream` content-type test
and for stating "message contains" properties below. -/
def pfxCheck : List Char → List Char → Bool
  | [], _ => true
  | _ :: _, [] => false
  | a :: as, b :: bs => a == b && pfxCheck as bs

/-- Does `pat` occur as a contiguous segment of the second list? -/
def subCheck (pat : List Char) : List Char → Bool
  | [] => pfxCheck pat []
  | c :: rest => pfxCheck pat (c :: rest) || subCheck pat rest

/-- Substring containment: does `s` contain `pat`? -/
def containsSub (s pat : String) : Bool :=
  subCheck pat.data s.data

/-- One HTTP response, with its body in the three already-consumed forms in
which `forward_request` reads it: `bodyJson` is what `response.json()`
yields (`none` = decode failure), `sseItems` is what
`bytes_stream().eventsource()` yields, and `bodySnippet` is the
UTF-8-truncated error-body snippet built at `src/http.rs` lines 283-293. -/
structure HttpResponseModel where
  status : Nat
  contentTypeHeader : Option String
  headerSummary : String
  bodyJson : Option Json
  sseItems : List (Except String SseEvent)
  bodySnippet : String

/-- The backend's answer to one attempt of `forward_request`: either an HTTP
response or a failure of `send()` itself, classified by
`reqwest::Error::{is_connect, is_timeout, is_request}`. -/
inductive SendOutcome where
  | response (r : HttpResponseModel)
  | failed (isConnect isTimeout isRequest : Bool) (msg : String)

/-- The failures `forward_request` can resolve to, kept structured; the
`anyhow` message string the source builds is `renderForwardError` below. -/
inductive ForwardError where
  | httpError (status : Nat) (contentType : String) (headerSummary : String)
      (bodySnippet : String)
  | sendError (msg : String)
  | jsonDecodeError
  | sseError (msg : String)
  | unknownError

/-- The `anyhow` message for each failure, following the `format!` strings of
`src/http.rs` (lines 280, 296-306, 327, 347).  The source renders the status
with `StatusCode`'s `Display` (the numeric code followed by the canonical
reason); we render the numeric code. -/
def renderForwardError : ForwardError → String
  | .httpError status contentType headerSummary bodySnippet =>
      "Bun Docs API error: status=" ++ Nat.repr status ++ " content_type=" ++
        (if contentType.isEmpty then "<none>" else contentType) ++
        " headers=[" ++ headerSummary ++ "] body_snippet=\"" ++ bodySnippet ++ "\""
  | .sendError msg => "Failed to send request to Bun Docs API: " ++ msg
  | .jsonDecodeError => "Failed to parse JSON response"
  | .sseError msg => msg
  | .unknownError => "Unknown error sending request"

/-- The retry loop of `BunDocsClient::forward_request` (`src/http.rs` lines
246-345), one recursive call per iteration of `for attempt in
1..=MAX_RETRIES`.  `rem` is the number of loop iterations still available
(`MAX_RETRIES + 1 - attempt`); `rem = 0` is the fall-through past the loop
to line 347.  The second component accumulates the backoff sleeps performed,
in order, as `tokio::time::sleep` durations in milliseconds. -/
def forwardGo (backend : Nat → SendOutcome) :
    Nat → Nat → Option ForwardError → List Nat → (Except ForwardError Json × List Nat)
  | 0, _, lastError, sleeps => (.error (lastError.getD .unknownError), sleeps)
  | rem + 1, attempt, _lastError, sleeps =>
    match backend attempt with
    | .response r =>
      let contentType := main_content_type r.contentTypeHeader
      if isSuccessStatus r.status then
        if pfxCheck "text/event-stream".data contentType.data then
          match parse_sse_response r.sseItems with
          | .ok v => (.ok v, sleeps)
          | .error m => (.error (.sseError m), sleeps)
        else
          match r.bodyJson with
          | some v => (.ok v, sleeps)
          | none => (.error .jsonDecodeError, sleeps)
      else
        let err := ForwardError.httpError r.status contentType r.headerSummary r.bodySnippet
        if is_transient_status r.status ∧ attempt < MAX_RETRIES then
          forwardGo backend rem (attempt + 1) (some err) (sleeps ++ [backoff_delay_ms attempt])
        else
          (.error err, sleeps)
    | .failed c t rq msg =>
      let err := ForwardError.sendError msg
      if (c || t || rq) ∧ attempt < MAX_RETRIES then
        forwardGo backend rem (attempt + 1) (some err) (sleeps ++ [backoff_delay_ms attempt])
      else
        (.error err, sleeps)

/-- `BunDocsClient::forward_request` (`src/http.rs` lines 241-348), applied
to a backend oracle: the final outcome together with the list of backoff
sleeps performed. -/
def forward_request (backend : Nat → SendOutcome) : Except ForwardError Json × List Nat :=
  forwardGo backend MAX_RETRIES 1 none []

/-- `JSONRPC_VERSION` from `src/protocol.rs` (line 38). -/
def JSONRPC_VERSION : String := "2.0"

/-- `JSONRPC_PARSE_ERROR` from `src/main.rs` (line 40). -/
def JSONRPC_PARSE_ERROR : Int := -32700

/-- `JSONRPC_INVALID_PARAMS` from `src/main.rs` (line 41). -/
def JSONRPC_INVALID_PARAMS : Int := -32602

/-- `JSONRPC_INTERNAL_ERROR` from `src/main.rs` (line 42). -/
def JSONRPC_INTERNAL_ERROR : Int := -32603

/-- `JSONRPC_METHOD_NOT_FOUND` from `src/main.rs` (line 43). -/
def JSONRPC_METHOD_NOT_FOUND : Int := -32601

/-- `JsonRpcError` from `src/protocol.rs` (lines 72-80). -/
structure JsonRpcError where
  code : Int
  message : String
  data : Option Json

/-- `JsonRpcError::new` (`src/protocol.rs` lines 92-98). -/
def JsonRpcError.new (code : Int) (message : String) : JsonRpcError :=
  ⟨code, message, none⟩

/-- `JsonRpcError::with_data` (`src/protocol.rs` lines 111-117). -/
def JsonRpcError.with_data (code : Int) (message : String) (data : Json) : JsonRpcError :=
  ⟨code, message, some data⟩

/-- `JsonRpcRequest` from `src/protocol.rs` (lines 42-53). -/
structure JsonRpcRequest where
  jsonrpc : String
  id : Json
  method : String
  params : Option Json

/-- `JsonRpcResponse` from `src/protocol.rs` (lines 57-68). -/
structure JsonRpcResponse where
  jsonrpc : String
  id : Json
  result : Option Json
  error : Option JsonRpcError

/-- `JsonRpcResponse::success` (`src/protocol.rs` lines 130-137). -/
def JsonRpcResponse.success (id : Json) (result : Json) : JsonRpcResponse :=
  ⟨JSONRPC_VERSION, id, some result, none⟩

/-- `JsonRpcResponse::error` (`src/protocol.rs` lines 149-156); renamed to
`mkError` because `error` is already that structure's field projection. -/
def JsonRpcResponse.mkError (id : Json) (code : Int) (message : String) : JsonRpcResponse :=
  ⟨JSONRPC_VERSION, id, none, some (JsonRpcError.new code message)⟩

/-- `JsonRpcResponse::error_with_data` (`src/protocol.rs` lines 170-177). -/
def JsonRpcResponse.error_with_data (id : Json) (code : Int) (message : String)
    (data : Json) : JsonRpcResponse :=
  ⟨JSONRPC_VERSION, id, none, some (JsonRpcError.with_data code message data)⟩

/-- One character of `serde_json`'s compact string escaping (the further
`\u00XX` escapes of rare control characters are left unescaped here; no
claim depends on them). -/
def escapeJsonChar (c : Char) : String :=
  if c = '"' then "\\\""
  else if c = '\\' then "\\\\"
  else if c = '\n' then "\\n"
  else if c = '\r' then "\\r"
  else if c = '\t' then "\\t"
  else String.singleton c

mutual

/-- `serde_json::to_string` on a `Value`: compact serialization.  On `Value`
inputs the source call is infallible, so the model is total. -/
def Json.render : Json → String
  | .null => "null"
  | .bool true => "true"
  | .bool false => "false"
  | .num n => toString n
  | .str s => "\"" ++ String.join (s.data.map escapeJsonChar) ++ "\""
  | .arr elems => "[" ++ Json.renderElems elems ++ "]"
  | .obj fields => "\x7b" ++ Json.renderFields fields ++ "\x7d"

/-- Comma-separated serialization of an array's elements. -/
def Json.renderElems : List Json → String
  | [] => ""
  | [v] => v.render
  | v :: rest => v.render ++ "," ++ Json.renderElems rest

/-- Comma-separated serialization of an object's fields. -/
def Json.renderFields : List (String × Json) → String
  | [] => ""
  | [(k, v)] => "\"" ++ String.join (k.data.map escapeJsonChar) ++ "\":" ++ v.render
  | (k, v) :: rest =>
      "\"" ++ String.join (k.data.map escapeJsonChar) ++ "\":" ++ v.render ++ "," ++
        Json.renderFields rest

end

/-- `get_string_param` from `src/main.rs` (lines 99-104):
`params.get(key).and_then(|v| v.as_str())` with the error message of the
source (`Value::as_str` is `some` exactly on strings). -/
def get_string_param (params : Json) (key : String) : Except String String :=
  match params.getKey key with
  | some (.str s) => .ok s
  | _ => .error ("Missing or invalid " ++ key ++ " parameter")

/-- `strip_prefix` on character lists: `some` the remainder when the first
argument is a leading segment of the second. -/
def dropPfx : List Char → List Char → Option (List Char)
  | [], s => some s
  | _ :: _, [] => none
  | a :: as, b :: bs => if a == b then dropPfx as bs else none

/-- `parse_bun_docs_uri` from `src/main.rs` (lines 107-115). -/
def parse_bun_docs_uri (uri : String) : Except String String :=
  match dropPfx "bun://docs?query=".data uri.data with
  | some rest => .ok (String.mk rest)
  | none =>
    if uri == "bun://docs" then .ok ""
    else .error ("Invalid URI format: " ++ uri)

/-- `serde_json::json!` serialization of an `Option<Value>` field: `None`
becomes JSON `null`. -/
def optJson : Option Json → Json
  | some v => v
  | none => .null

/-- The body `handle_tools_call` forwards (`src/main.rs` lines 411-416): the
inbound request's `id`/`method`/`params` re-wrapped unchanged. -/
def tools_call_forward_body (req : JsonRpcRequest) : Json :=
  Json.obj [("jsonrpc", .str "2.0"), ("id", req.id), ("method", .str req.method),
    ("params", optJson req.params)]

/-- `handle_tools_call` from `src/main.rs` (lines 406-439).  `forward` is
the oracle for `client.forward_request`, returning the decoded JSON value or
the rendered error message. -/
def handle_tools_call (forward : Json → Except String Json) (req : JsonRpcRequest) :
    JsonRpcResponse :=
  match forward (tools_call_forward_body req) with
  | .ok result =>
    match result.getKey "result" with
    | some resultField => JsonRpcResponse.success req.id resultField
    | none => JsonRpcResponse.success req.id result
  | .error e => JsonRpcResponse.mkError req.id JSONRPC_INTERNAL_ERROR ("Internal error: " ++ e)

/-- The synthetic `tools/call` request `handle_resources_read` builds
(`src/main.rs` lines 507-517). -/
def resources_read_search_request (id : Json) (query : String) : Json :=
  Json.obj [("jsonrpc", .str "2.0"), ("id", id), ("method", .str "tools/call"),
    ("params", Json.obj [("name", .str "SearchBun"),
      ("arguments", Json.obj [("query", .str query)])])]

/-- `handle_resources_read` from `src/main.rs` (lines 477-558).  The
serialize-failure branch (lines 528-536) cannot occur for the total
`Json.render`, matching `serde_json::to_string`'s infallibility on
`Value`. -/
def handle_resources_read (forward : Json → Except String Json) (req : JsonRpcRequest) :
    JsonRpcResponse :=
  match req.params with
  | none => JsonRpcResponse.mkError req.id JSONRPC_INVALID_PARAMS "Missing params"
  | some params =>
    match get_string_param params "uri" with
    | .error msg => JsonRpcResponse.mkError req.id JSONRPC_INVALID_PARAMS msg
    | .ok uri =>
      match parse_bun_docs_uri uri with
      | .error msg => JsonRpcResponse.mkError req.id JSONRPC_INVALID_PARAMS msg
      | .ok query =>
        match forward (resources_read_search_request req.id query) with
        | .ok result =>
          JsonRpcResponse.success req.id (Json.obj [("contents", Json.arr [Json.obj
            [("uri", .str uri), ("mimeType", .str "application/json"),
             ("text", .str (Json.render result))]])])
        | .error e =>
          JsonRpcResponse.mkError req.id JSONRPC_INTERNAL_ERROR ("Internal error: " ++ e)

/-! ## Theorems -/

/-- C4: `is_transient_status` holds exactly on {429, 500, 502, 503, 504} and
on no other status code. -/
theorem is_transient_status_iff (status : Nat) :
    is_transient_status status = true ↔
      status = 429 ∨ status = 500 ∨ status = 502 ∨ status = 503 ∨ status = 504 := by
  simp only [is_transient_status, Bool.or_eq_true, beq_iff_eq]
  tauto

/-- C5 counterexample: the claim's "for every attempt ≥ 4 the delay equals
the cap 1000" fails at attempt 65, where the 64-bit shift amount wraps and
the delay is 200 ms instead of the cap. -/
theorem backoff_cap_fails_at_65 :
    backoff_delay_ms 65 = 200 ∧ ¬ backoff_delay_ms 65 = 1000 := by
  decide

/-- C5 (amended): the delays for attempts 1, 2, 3 are exactly 200, 400,
800 ms, and for every attempt with 4 ≤ attempt ≤ 64 the delay equals the cap
1000 ms; from attempt 65 on the `as u32` cast and the 64-bit shift masking
wrap the exponent, so the delay re-enters the 200/400/800/1000 cycle instead
of staying at the cap. -/
theorem backoff_delay_values :
    backoff_delay_ms 1 = 200 ∧ backoff_delay_ms 2 = 400 ∧ backoff_delay_ms 3 = 800 ∧
    ∀ attempt, 4 ≤ attempt → attempt ≤ 64 → backoff_delay_ms attempt = 1000 := by
  refine ⟨by decide, by decide, by decide, ?_⟩
  intro attempt h4 h64
  have h32 : (2 : Nat) ^ 32 = 4294967296 := by norm_num
  have hlt32 : attempt - 1 < 2 ^ 32 := by rw [h32]; omega
  have hlt64 : attempt - 1 < 64 := by omega
  have hshift : (attempt - 1) % 2 ^ 32 % 64 = attempt - 1 := by
    rw [Nat.mod_eq_of_lt hlt32, Nat.mod_eq_of_lt hlt64]
  have hpow : (2 : Nat) ^ 3 ≤ 2 ^ (attempt - 1) :=
    Nat.pow_le_pow_right (by norm_num) (by omega)
  have hbig : (1000 : Nat) ≤ BACKOFF_BASE_MS * 2 ^ (attempt - 1) := by
    calc (1000 : Nat) ≤ 200 * 2 ^ 3 := by norm_num
      _ ≤ 200 * 2 ^ (attempt - 1) := Nat.mul_le_mul_left _ hpow
      _ = BACKOFF_BASE_MS * 2 ^ (attempt - 1) := by rw [BACKOFF_BASE_MS]
  have hmax : (1000 : Nat) ≤ U64_MAX := by rw [U64_MAX]; norm_num
  rw [backoff_delay_ms, hshift, BACKOFF_MAX_MS]
  exact min_eq_right (le_min hbig hmax)

/-- C5 witness: the amended cap statement at the concrete attempt 10. -/
theorem backoff_delay_values_witness : backoff_delay_ms 10 = 1000 :=
  backoff_delay_values.2.2.2 10 (by norm_num) (by norm_num)

/-- C9: for every positive attempt the backoff computation yields a
well-defined value between the 200 ms base and the 1000 ms cap — in
particular a representable `u64`, with every intermediate operation
saturating or masking rather than failing. -/
theorem backoff_delay_total (attempt : Nat) (h : 1 ≤ attempt) :
    BACKOFF_BASE_MS ≤ backoff_delay_ms attempt ∧
    backoff_delay_ms attempt ≤ BACKOFF_MAX_MS ∧
    backoff_delay_ms attempt < 2 ^ 64 := by
  refine ⟨?_, ?_, ?_⟩
  · refine le_min (le_min ?_ ?_) ?_
    · exact Nat.le_mul_of_pos_right _ (Nat.pos_pow_of_pos _ (by norm_num))
    · rw [BACKOFF_BASE_MS, U64_MAX]; norm_num
    · rw [BACKOFF_BASE_MS, BACKOFF_MAX_MS]; norm_num
  · exact min_le_right _ _
  · calc backoff_delay_ms attempt ≤ BACKOFF_MAX_MS := min_le_right _ _
      _ < 2 ^ 64 := by rw [BACKOFF_MAX_MS]; norm_num

/-- C9 witness: the totality statement instantiated at attempt 7. -/
theorem backoff_delay_total_witness :
    1 ≤ 7 ∧ (BACKOFF_BASE_MS ≤ backoff_delay_ms 7 ∧
      backoff_delay_ms 7 ≤ BACKOFF_MAX_MS ∧ backoff_delay_ms 7 < 2 ^ 64) :=
  ⟨by norm_num, backoff_delay_total 7 (by norm_num)⟩

/-- C8: every `JsonRpcResponse` built by a constructor populates exactly one
of `result`/`error`: `success` sets `result` and leaves `error` absent,
while `mkError` (the source's `error`) and `error_with_data` set `error` and
leave `result` absent. -/
theorem jsonrpc_response_exactly_one :
    (∀ (id : Json) (v : Json),
      (JsonRpcResponse.success id v).result = some v ∧
      (JsonRpcResponse.success id v).error = none) ∧
    (∀ (id : Json) (c : Int) (m : String),
      (JsonRpcResponse.mkError id c m).result = none ∧
      (JsonRpcResponse.mkError id c m).error = some (JsonRpcError.new c m)) ∧
    (∀ (id : Json) (c : Int) (m : String) (d : Json),
      (JsonRpcResponse.error_with_data id c m d).result = none ∧
      (JsonRpcResponse.error_with_data id c m d).error = some (JsonRpcError.with_data c m d)) :=
  ⟨fun _ _ => ⟨rfl, rfl⟩, fun _ _ _ => ⟨rfl, rfl⟩, fun _ _ _ _ => ⟨rfl, rfl⟩⟩

/-- C7: when forwarding succeeds with decoded value `v`, `handle_tools_call`
answers with the inbound `id` echoed verbatim, no error, and as result the
top-level `result` field of `v` when present, else `v` itself. -/
theorem tools_call_success_shape (forward : Json → Except String Json)
    (req : JsonRpcRequest) (v : Json)
    (h : forward (tools_call_forward_body req) = .ok v) :
    (handle_tools_call forward req).id = req.id ∧
    (handle_tools_call forward req).error = none ∧
    (handle_tools_call forward req).result =
      some (match v.getKey "result" with | some resultField => resultField | none => v) := by
  cases hr : v.getKey "result" with
  | none => simp [handle_tools_call, h, hr, JsonRpcResponse.success]
  | some resultField => simp [handle_tools_call, h, hr, JsonRpcResponse.success]

/-- C7 witness: a concrete request whose forwarding yields an enveloped
`result` field, which the handler unwraps while echoing the numeric id. -/
theorem tools_call_success_shape_witness :
    (fun _ : Json => (Except.ok (Json.obj [("result", Json.str "ok")]) : Except String Json))
        (tools_call_forward_body ⟨"2.0", Json.num 1, "tools/call", none⟩) =
      .ok (Json.obj [("result", Json.str "ok")]) ∧
    (handle_tools_call
        (fun _ => .ok (Json.obj [("result", Json.str "ok")]))
        ⟨"2.0", Json.num 1, "tools/call", none⟩).id = Json.num 1 ∧
    (handle_tools_call
        (fun _ => .ok (Json.obj [("result", Json.str "ok")]))
        ⟨"2.0", Json.num 1, "tools/call", none⟩).error = none ∧
    (handle_tools_call
        (fun _ => .ok (Json.obj [("result", Json.str "ok")]))
        ⟨"2.0", Json.num 1, "tools/call", none⟩).result = some (Json.str "ok") := by
  have h := tools_call_success_shape
    (fun _ => .ok (Json.obj [("result", Json.str "ok")]))
    ⟨"2.0", Json.num 1, "tools/call", none⟩
    (Json.obj [("result", Json.str "ok")]) rfl
  exact ⟨rfl, h.1, h.2.1, h.2.2⟩

theorem pfxCheck_self_append (p r : List Char) : pfxCheck p (p ++ r) = true := by
  induction p with
  | nil => rfl
  | cons a as ih => simp [pfxCheck, ih]

theorem subCheck_of_pfxCheck (p l : List Char) (h : pfxCheck p l = true) :
    subCheck p l = true := by
  cases l with
  | nil => simpa [subCheck] using h
  | cons c rest => simp [subCheck, h]

theorem subCheck_middle (p x y : List Char) : subCheck p (x ++ (p ++ y)) = true := by
  induction x with
  | nil => exact subCheck_of_pfxCheck _ _ (pfxCheck_self_append p y)
  | cons c cs ih => simp [subCheck, ih]

theorem str_data_append (s t : String) : (s ++ t).data = s.data ++ t.data := rfl

/-- The diagnostic message of an HTTP-status failure contains the decimal
rendering of the status code, whatever the other components are. -/
theorem renderHttpError_contains_status (st : Nat) (ct hsum bs : String) :
    containsSub (renderForwardError (.httpError st ct hsum bs)) (Nat.repr st) = true := by
  unfold containsSub renderForwardError
  simp only [str_data_append, List.append_assoc]
  exact subCheck_middle _ _ _

/-- C1: a backend answering every attempt with one fixed transient status
(the other response components may vary per attempt) makes `forward_request`
exhaust all 3 attempts, return the diagnostic error of the final attempt —
whose message contains the status — and sleep exactly twice, after attempts
1 and 2 and never after the final attempt. -/
theorem forward_all_transient_exhausts (status : Nat)
    (cth : Nat → Option String) (hdrs : Nat → String) (bj : Nat → Option Json)
    (sse : Nat → List (Except String SseEvent)) (snip : Nat → String)
    (hT : is_transient_status status = true) :
    forward_request (fun k => .response ⟨status, cth k, hdrs k, bj k, sse k, snip k⟩) =
      (.error (.httpError status (main_content_type (cth 3)) (hdrs 3) (snip 3)),
        [backoff_delay_ms 1, backoff_delay_ms 2]) ∧
    containsSub
      (renderForwardError (.httpError status (main_content_type (cth 3)) (hdrs 3) (snip 3)))
      (Nat.repr status) = true := by
  refine ⟨?_, renderHttpError_contains_status _ _ _ _⟩
  simp only [is_transient_status, Bool.or_eq_true, beq_iff_eq] at hT
  rcases hT with ((((h | h) | h) | h) | h) <;> subst h <;> rfl

/-- C1 witness: a backend answering 503 on every attempt. -/
theorem forward_all_transient_exhausts_witness :
    is_transient_status 503 = true ∧
    forward_request (fun _ => .response ⟨503, none, "", none, [], ""⟩) =
      (.error (.httpError 503 "" "" ""), [200, 400]) ∧
    containsSub (renderForwardError (.httpError 503 "" "" "")) "503" = true := by
  have h := forward_all_transient_exhausts 503
    (fun _ => none) (fun _ => "") (fun _ => none) (fun _ => []) (fun _ => "") rfl
  exact ⟨rfl, h.1, h.2⟩

/-- C2: whenever an iteration of the retry loop receives a response whose
status is neither a success nor transient, the loop returns the diagnostic
error of that very response with the sleep list unchanged — for every
backend, every attempt number, and every number of remaining iterations, so
no sleep and no further attempt happens after such a response. -/
theorem forward_non_transient_immediate (backend : Nat → SendOutcome)
    (rem attempt : Nat) (lastError : Option ForwardError) (sleeps : List Nat)
    (r : HttpResponseModel)
    (hrem : 1 ≤ rem)
    (hb : backend attempt = .response r)
    (hsucc : isSuccessStatus r.status = false)
    (htrans : is_transient_status r.status = false) :
    forwardGo backend rem attempt lastError sleeps =
      (.error (.httpError r.status (main_content_type r.contentTypeHeader)
        r.headerSummary r.bodySnippet), sleeps) := by
  obtain ⟨rem', rfl⟩ : ∃ rem', rem = rem' + 1 := ⟨rem - 1, by omega⟩
  simp [forwardGo, hb, hsucc, htrans]

/-- C2 witness: a single 404 answer on the first attempt of a fresh
`forward_request` call fails at once with no sleep recorded. -/
theorem forward_non_transient_immediate_witness :
    1 ≤ MAX_RETRIES ∧
    (fun _ : Nat => SendOutcome.response ⟨404, none, "hdr", none, [], "nf"⟩) 1 =
      .response ⟨404, none, "hdr", none, [], "nf"⟩ ∧
    isSuccessStatus 404 = false ∧ is_transient_status 404 = false ∧
    forward_request (fun _ => .response ⟨404, none, "hdr", none, [], "nf"⟩) =
      (.error (.httpError 404 "" "hdr" "nf"), []) := by
  refine ⟨by decide, rfl, rfl, rfl, ?_⟩
  exact forward_non_transient_immediate
    (fun _ => .response ⟨404, none, "hdr", none, [], "nf"⟩) MAX_RETRIES 1 none []
    ⟨404, none, "hdr", none, [], "nf"⟩ (by decide) rfl rfl rfl

/-- Reachable loop states (`1 ≤ rem`, `attempt + rem = MAX_RETRIES + 1`)
resolve within the remaining iterations: the outcome is unchanged by extra
iteration budget and by the recorded last error, and is never the generic
fallback error. -/
theorem forwardGo_spec (backend : Nat → SendOutcome) :
    ∀ (rem attempt : Nat) (le le' : Option ForwardError) (sleeps : List Nat) (k : Nat),
      1 ≤ rem → attempt + rem = MAX_RETRIES + 1 →
      forwardGo backend rem attempt le sleeps = forwardGo backend (rem + k) attempt le' sleeps ∧
      (forwardGo backend rem attempt le sleeps).1 ≠ .error .unknownError := by
  intro rem
  induction rem with
  | zero => intro attempt le le' sleeps k h1 _; exact absurd h1 (by omega)
  | succ rem' ih =>
    intro attempt le le' sleeps k _ hsum
    have hM : MAX_RETRIES = 3 := rfl
    rw [hM] at hsum
    have hk : rem' + 1 + k = rem' + k + 1 := by omega
    rw [hk]
    cases hb : backend attempt with
    | response r =>
      by_cases hs : isSuccessStatus r.status = true
      · by_cases hstream :
            pfxCheck "text/event-stream".data (main_content_type r.contentTypeHeader).data = true
        · cases hp : parse_sse_response r.sseItems with
          | ok v => simp [forwardGo, hb, hs, hstream, hp]
          | error m => simp [forwardGo, hb, hs, hstream, hp]
        · cases hj : r.bodyJson with
          | some v => simp [forwardGo, hb, hs, hstream, hj]
          | none => simp [forwardGo, hb, hs, hstream, hj]
      · have hs' : isSuccessStatus r.status = false := by simpa using hs
        by_cases ht : is_transient_status r.status = true ∧ attempt < MAX_RETRIES
        · obtain ⟨ht1, ht2⟩ := ht
          have ht3 : attempt < 3 := hM ▸ ht2
          have hrec := ih (attempt + 1)
            (some (.httpError r.status (main_content_type r.contentTypeHeader)
              r.headerSummary r.bodySnippet))
            (some (.httpError r.status (main_content_type r.contentTypeHeader)
              r.headerSummary r.bodySnippet))
            (sleeps ++ [backoff_delay_ms attempt]) k (by omega) (by rw [hM]; omega)
          simp only [forwardGo, hb, hs', Bool.false_eq_true, if_false, ht1, ht2,
            and_self, if_true, true_and, and_true, if_pos]
          exact ⟨hrec.1, hrec.2⟩
        · simp [forwardGo, hb, hs', ht]
    | failed c t rq msg =>
      by_cases hn : (c || t || rq) = true ∧ attempt < MAX_RETRIES
      · obtain ⟨hn1, hn2⟩ := hn
        have hn3 : attempt < 3 := hM ▸ hn2
        have hrec := ih (attempt + 1) (some (.sendError msg)) (some (.sendError msg))
          (sleeps ++ [backoff_delay_ms attempt]) k (by omega) (by rw [hM]; omega)
        simp only [forwardGo, hb, hn1, hn2, and_self, if_true, true_and, and_true, if_pos]
        exact ⟨hrec.1, hrec.2⟩
      · simp only [Bool.or_eq_true] at hn
        simp [forwardGo, hb, hn]

/-- C10: every `forward_request` execution resolves inside the retry loop:
granting the loop any extra iteration budget and any recorded last error
leaves the outcome unchanged (the post-loop fallback is never consulted),
and the outcome is never the generic "Unknown error sending request". -/
theorem forward_no_unknown_error (backend : Nat → SendOutcome) :
    (∀ (le : Option ForwardError) (k : Nat),
      forwardGo backend (MAX_RETRIES + k) 1 le [] = forward_request backend) ∧
    (forward_request backend).1 ≠ .error .unknownError := by
  constructor
  · intro le k
    exact (forwardGo_spec backend MAX_RETRIES 1 none le [] k (by decide) (by decide)).1.symm
  · exact (forwardGo_spec backend MAX_RETRIES 1 none none [] 0 (by decide) (by decide)).2

/-- A non-qualifying event is skipped by the reducer's loop. -/
theorem parse_sse_loop_skip (ev : SseEvent) (rest : List (Except String SseEvent))
    (h : qualifying ev = false) :
    parse_sse_loop (.ok ev :: rest) = parse_sse_loop rest := by
  simp only [parse_sse_loop]
  by_cases h1 : (sseEventType ev != "message" && sseEventType ev != "completion") = true
  · rw [if_pos h1]
  · rw [if_neg h1]
    have h1' : sseEventType ev = "message" ∨ sseEventType ev = "completion" := by
      rcases Bool.not_eq_true _ |>.mp h1 |> Bool.and_eq_false_iff.mp with h2 | h2
      · exact Or.inl (by simpa [bne_iff_ne] using h2)
      · exact Or.inr (by simpa [bne_iff_ne] using h2)
    by_cases h2 : (!ev.data.isEmpty) = true
    · rw [if_pos h2]
      cases hd : ev.dataJson with
      | none => rfl
      | some p =>
        have hkeys : ((p.getKey "result").isSome || (p.getKey "error").isSome) = false := by
          cases hQ : ((p.getKey "result").isSome || (p.getKey "error").isSome)
          · rfl
          · exfalso
            have hqt : qualifying ev = true := by
              unfold qualifying
              rw [hd]
              rcases h1' with h3 | h3 <;> simp [h3, h2, hQ]
            rw [h] at hqt
            exact Bool.false_ne_true hqt
        show (if ((p.getKey "result").isSome || (p.getKey "error").isSome) = true then some p
          else parse_sse_loop rest) = parse_sse_loop rest
        rw [if_neg (by simp [hkeys])]
    · rw [if_neg h2]

/-- A qualifying event makes the reducer's loop return its parsed data. -/
theorem parse_sse_loop_hit (ev : SseEvent) (rest : List (Except String SseEvent))
    (p : Json) (hq : qualifying ev = true) (hd : ev.dataJson = some p) :
    parse_sse_loop (.ok ev :: rest) = some p := by
  unfold qualifying at hq
  rw [hd] at hq
  simp only [Bool.and_eq_true] at hq
  obtain ⟨⟨htype, hdata⟩, hkeys⟩ := hq
  simp only [parse_sse_loop]
  have h1 : (sseEventType ev != "message" && sseEventType ev != "completion") = false := by
    rcases Bool.or_eq_true .. |>.mp htype with h3 | h3 <;> simp [bne, h3]
  rw [if_neg (by simp [h1]), if_pos hdata, hd]
  show (if ((p.getKey "result").isSome || (p.getKey "error").isSome) = true then some p
    else parse_sse_loop rest) = some p
  rw [if_pos hkeys]

/-- The reducer's loop returns the parsed data of the first qualifying event
among the events before the stream's end or first error, and `none` when
there is no such event. -/
theorem parse_sse_loop_first (items : List (Except String SseEvent)) :
    ((okEventsBeforeError items).find? qualifying = none → parse_sse_loop items = none) ∧
    (∀ e, (okEventsBeforeError items).find? qualifying = some e →
      ∃ v, e.dataJson = some v ∧ parse_sse_loop items = some v) := by
  induction items with
  | nil => exact ⟨fun _ => rfl, fun e h => by simp [okEventsBeforeError] at h⟩
  | cons item rest ih =>
    cases item with
    | error m => exact ⟨fun _ => rfl, fun e h => by simp [okEventsBeforeError] at h⟩
    | ok ev =>
      by_cases hq : qualifying ev = true
      · refine ⟨fun h => ?_, fun e h => ?_⟩
        · rw [okEventsBeforeError, List.find?_cons_of_pos _ hq] at h
          exact absurd h (by simp)
        · rw [okEventsBeforeError, List.find?_cons_of_pos _ hq] at h
          have hee : ev = e := by injection h
          subst hee
          have hd : ∃ p, ev.dataJson = some p := by
            cases hdj : ev.dataJson with
            | none => unfold qualifying at hq; rw [hdj] at hq; simp at hq
            | some p => exact ⟨p, rfl⟩
          obtain ⟨p, hp⟩ := hd
          exact ⟨p, hp, parse_sse_loop_hit ev rest p hq hp⟩
      · have hq' : qualifying ev = false := by simpa using hq
        refine ⟨fun h => ?_, fun e h => ?_⟩
        · rw [okEventsBeforeError, List.find?_cons_of_neg _ (by simp [hq'])] at h
          rw [parse_sse_loop_skip ev rest hq']
          exact ih.1 h
        · rw [okEventsBeforeError, List.find?_cons_of_neg _ (by simp [hq'])] at h
          obtain ⟨v, hv, hl⟩ := ih.2 e h
          exact ⟨v, hv, by rw [parse_sse_loop_skip ev rest hq']; exact hl⟩

/-- C3: the SSE reducer returns the parsed JSON of the first event before
the stream's end or first error that has a `message` (defaulted) or
`completion` type, non-empty data, JSON-parsable data, and a top-level
`result` or `error` key — skipping all other events without aborting — and
fails with "No valid JSON-RPC response in SSE stream" when no such event
occurs. -/
theorem parse_sse_first_qualifying (items : List (Except String SseEvent)) :
    ((okEventsBeforeError items).find? qualifying = none →
      parse_sse_response items = .error "No valid JSON-RPC response in SSE stream") ∧
    (∀ e, (okEventsBeforeError items).find? qualifying = some e →
      ∃ v, e.dataJson = some v ∧ parse_sse_response items = .ok v) := by
  obtain ⟨h1, h2⟩ := parse_sse_loop_first items
  refine ⟨fun h => ?_, fun e h => ?_⟩
  · unfold parse_sse_response
    rw [h1 h]
  · obtain ⟨v, hv, hl⟩ := h2 e h
    exact ⟨v, hv, by unfold parse_sse_response; rw [hl]⟩

/-- C3 witness: a stream with a heartbeat, a non-JSON `message` event, a
qualifying `completion` event, and then a stream error; the reducer returns
the qualifying event's JSON. -/
theorem parse_sse_first_qualifying_witness :
    (okEventsBeforeError [.ok ⟨"heartbeat", "hb", none⟩, .ok ⟨"", "notjson", none⟩,
        .ok ⟨"completion", "d", some (Json.obj [("result", Json.null)])⟩,
        .error "boom"]).find? qualifying =
      some ⟨"completion", "d", some (Json.obj [("result", Json.null)])⟩ ∧
    parse_sse_response [.ok ⟨"heartbeat", "hb", none⟩, .ok ⟨"", "notjson", none⟩,
        .ok ⟨"completion", "d", some (Json.obj [("result", Json.null)])⟩,
        .error "boom"] = .ok (Json.obj [("result", Json.null)]) := by
  refine ⟨rfl, ?_⟩
  obtain ⟨v, hv, hr⟩ := (parse_sse_first_qualifying
    [.ok ⟨"heartbeat", "hb", none⟩, .ok ⟨"", "notjson", none⟩,
     .ok ⟨"completion", "d", some (Json.obj [("result", Json.null)])⟩,
     .error "boom"]).2
    ⟨"completion", "d", some (Json.obj [("result", Json.null)])⟩ rfl
  have hv2 : some (Json.obj [("result", Json.null)]) = some v := hv
  injection hv2 with hv3
  rw [← hv3] at hr
  exact hr

theorem dropPfx_append (p r : List Char) : dropPfx p (p ++ r) = some r := by
  induction p with
  | nil => rfl
  | cons a as ih => simp [dropPfx, ih]

theorem dropPfx_some_eq (p s r : List Char) (h : dropPfx p s = some r) : s = p ++ r := by
  induction p generalizing s with
  | nil =>
    simp only [dropPfx, Option.some.injEq] at h
    simp [h]
  | cons a as ih =>
    cases s with
    | nil => simp [dropPfx] at h
    | cons b bs =>
      simp only [dropPfx] at h
      by_cases hab : (a == b) = true
      · rw [if_pos hab] at h
        rw [List.cons_append, ← eq_of_beq hab, ih bs h]
      · rw [if_neg hab] at h
        exact absurd h (by simp)

/-- C6: the `resources/read` URI parser maps the bare literal to the empty
query, maps `bun://docs?query=<rest>` to the raw remainder `<rest>`, and on
every other string `handle_resources_read` answers with an invalid-params
(-32602) error carrying the parser's message. -/
theorem resources_read_uri_grammar :
    parse_bun_docs_uri "bun://docs" = .ok "" ∧
    (∀ rest : String, parse_bun_docs_uri ("bun://docs?query=" ++ rest) = .ok rest) ∧
    (∀ (forward : Json → Except String Json) (req : JsonRpcRequest) (params : Json)
        (uri : String),
      req.params = some params → params.getKey "uri" = some (.str uri) →
      (∀ r : List Char, uri.data ≠ "bun://docs?query=".data ++ r) → uri ≠ "bun://docs" →
      handle_resources_read forward req =
        JsonRpcResponse.mkError req.id JSONRPC_INVALID_PARAMS ("Invalid URI format: " ++ uri)) := by
  refine ⟨rfl, fun rest => ?_, fun forward req params uri hp hu hnq hne => ?_⟩
  · simp only [parse_bun_docs_uri, str_data_append, dropPfx_append]
  · have hnone : dropPfx "bun://docs?query=".data uri.data = none := by
      cases hdp : dropPfx "bun://docs?query=".data uri.data with
      | none => rfl
      | some r => exact absurd (dropPfx_some_eq _ _ _ hdp) (hnq r)
    have hbeq : (uri == "bun://docs") = false := by
      simpa using hne
    simp [handle_resources_read, get_string_param, parse_bun_docs_uri, hp, hu, hnone, hbeq]

/-- C6 witness: `"invalid://uri"` is rejected by `handle_resources_read`
with the invalid-params code. -/
theorem resources_read_uri_grammar_witness :
    (⟨"2.0", Json.num 7, "resources/read",
        some (Json.obj [("uri", Json.str "invalid://uri")])⟩ : JsonRpcRequest).params =
      some (Json.obj [("uri", Json.str "invalid://uri")]) ∧
    (Json.obj [("uri", Json.str "invalid://uri")]).getKey "uri" =
      some (Json.str "invalid://uri") ∧
    handle_resources_read (fun _ => .error "unused")
        ⟨"2.0", Json.num 7, "resources/read",
          some (Json.obj [("uri", Json.str "invalid://uri")])⟩ =
      JsonRpcResponse.mkError (Json.num 7) JSONRPC_INVALID_PARAMS
        "Invalid URI format: invalid://uri" := by
  refine ⟨rfl, rfl, ?_⟩
  have h := resources_read_uri_grammar.2.2 (fun _ => .error "unused")
    ⟨"2.0", Json.num 7, "resources/read",
      some (Json.obj [("uri", Json.str "invalid://uri")])⟩
    (Json.obj [("uri", Json.str "invalid://uri")]) "invalid://uri" rfl rfl
    (by
      intro r hcon
      have h1 : ("bun://docs?query=".data ++ r).head? = some 'b' := rfl
      rw [← hcon] at h1
      exact absurd h1 (by decide))
    (by decide)
  exact h

end BunDocs
